import Mathlib

/-!
Verification of the transport-hardening core of the polymarket client
(rate limiting, request authentication, pagination), as a shallow
embedding of the Python source in Lean 4.

Conventions of the embedding:
- machine time (the Python calls to time.time) is passed in explicitly as a parameter
  (`now` in seconds, `now_us` in microseconds);
- Python float arithmetic on times and token counts is modelled exactly
  over the rationals;
- Python `int(...)` string parsing is modelled by `pyParseInt` below
  (whitespace stripping, optional sign, decimal digits with underscore
  separators);
- fallible Python code is modelled with `Except` / `Option`; Python
  truthiness of optional strings and ints is modelled by `pyTruthyStr`
  and `pyTruthyNat`.
-/

/-- Python truthiness of an optional string: `None` and the empty string
are falsy, everything else is truthy. -/
def pyTruthyStr : Option String → Bool
  | none => false
  | some s => !(s == "")

/-- Python truthiness of an optional int: `None` and `0` are falsy. -/
def pyTruthyNat : Option Nat → Bool
  | none => false
  | some n => !(n == 0)

/-- Python `x or d` for an optional string `x`: the string itself if
truthy, otherwise the default. -/
def pyOrStr (x : Option String) (d : String) : String :=
  match x with
  | none => d
  | some s => if s == "" then d else s

/-- Whitespace characters stripped by Python `int(...)` parsing. -/
def isPySpace (c : Char) : Bool :=
  c == ' ' || c == '\t' || c == '\n' || c == '\r' || c == '\x0b' || c == '\x0c'

/-- Value of a decimal digit character. -/
def digitVal (c : Char) : Nat := c.toNat - 48

/-- Parse the tail of a Python integer literal after its first digit:
digits, with single underscores allowed between digits. Returns the
list of digit values, or `none` on a malformed literal. -/
def pyDigitsRest : List Char → Option (List Nat)
  | [] => some []
  | '_' :: c :: rest =>
    if c.isDigit then (pyDigitsRest rest).map (fun ds => digitVal c :: ds) else none
  | ['_'] => none
  | c :: rest =>
    if c.isDigit then (pyDigitsRest rest).map (fun ds => digitVal c :: ds) else none

/-- Parse a nonempty run of decimal digits with underscore separators,
as accepted by Python `int(...)` after sign stripping. -/
def pyDigits : List Char → Option (List Nat)
  | [] => none
  | c :: rest =>
    if c.isDigit then (pyDigitsRest rest).map (fun ds => digitVal c :: ds) else none

/-- Numeric value of a list of decimal digit values. -/
def digitsToNat (ds : List Nat) : Nat :=
  ds.foldl (fun acc d => acc * 10 + d) 0

/-- Model of Python `int(s)` on a string: strips surrounding whitespace,
accepts one optional sign, then decimal digits with underscore
separators. Returns `none` where Python raises ValueError. -/
def pyParseInt (s : String) : Option Int :=
  let cs := (s.data.dropWhile isPySpace).reverse.dropWhile isPySpace |>.reverse
  match cs with
  | '+' :: rest => (pyDigits rest).map (fun ds => (digitsToNat ds : Int))
  | '-' :: rest => (pyDigits rest).map (fun ds => -(digitsToNat ds : Int))
  | rest => (pyDigits rest).map (fun ds => (digitsToNat ds : Int))

/-- Hexadecimal digit test, as accepted by Python `int(s, 16)`. -/
def isPyHexDigit (c : Char) : Bool :=
  c.isDigit || ('a' ≤ c && c ≤ 'f') || ('A' ≤ c && c ≤ 'F')

/-- Parse the tail of a hexadecimal literal after its first digit, with
single underscores allowed between digits. -/
def pyHexRest : List Char → Bool
  | [] => true
  | '_' :: c :: rest => isPyHexDigit c && pyHexRest rest
  | ['_'] => false
  | c :: rest => isPyHexDigit c && pyHexRest rest

/-- Model of Python `int(s, 16)` succeeding on a character list:
surrounding whitespace, one optional sign, an optional 0x prefix, then
nonempty hex digits with underscore separators. Only success is
modelled because the source uses the parse exclusively as a format
check. -/
def pyHexParsesL (cs0 : List Char) : Bool :=
  let cs := (cs0.dropWhile isPySpace).reverse.dropWhile isPySpace |>.reverse
  let cs := match cs with
    | '+' :: rest => rest
    | '-' :: rest => rest
    | rest => rest
  let cs := match cs with
    | '0' :: 'x' :: rest => rest
    | '0' :: 'X' :: rest => rest
    | rest => rest
  match cs with
  | [] => false
  | c :: rest => isPyHexDigit c && pyHexRest rest

/-- Model of Python `int(s, 16)` succeeding on a string. -/
def pyHexParses (s : String) : Bool := pyHexParsesL s.data

/-!
SignatureValidator (src/polymarket_client/auth/signature_validator.py).
The validator object carries only a chain id, which none of the
validation methods below consult; they are modelled as plain functions,
with the current clock passed explicitly.
-/

/-- Translation of SignatureValidator.validate_timestamp: parse the
timestamp string as an integer, compute `age = now - t`, and accept iff
`0 <= age <= max_age_seconds`. A parse failure (ValueError) is caught
and returns false. -/
def validate_timestamp (now : Int) (timestamp : String) (max_age_seconds : Int) : Bool :=
  match pyParseInt timestamp with
  | none => false
  | some t =>
    let age := now - t
    decide (0 ≤ age ∧ age ≤ max_age_seconds)

/-- Translation of SignatureValidator.validate_nonce: reject a nonce
already in `used_nonces`; otherwise accept iff its age in seconds
(current microsecond clock minus the nonce, divided by 1000000 — true
division, modelled exactly over the rationals) lies in
`[0, max_nonce_age_seconds]`. -/
def validate_nonce (now_us : Int) (nonce : Int) (used_nonces : List Int)
    (max_nonce_age_seconds : Int) : Bool :=
  if nonce ∈ used_nonces then false
  else
    let nonce_age : ℚ := ((now_us - nonce : Int) : ℚ) / 1000000
    decide (0 ≤ nonce_age ∧ nonce_age ≤ (max_nonce_age_seconds : ℚ))

/-- Translation of SignatureValidator.validate_address_format: the
string must start with 0x, the remainder must have length 40 and parse
under Python `int(_, 16)`. Stated over the character list of the
address so that a concrete run evaluates inside the kernel. -/
def validate_address_format (address : String) : Bool :=
  match address.data with
  | '0' :: 'x' :: address_hex =>
    if address_hex.length != 40 then false
    else pyHexParsesL address_hex
  | _ => false

/-- Claim C7: validate_timestamp accepts exactly the strings that parse
to an integer t with `0 <= now - t <= maxAge`; consequently the boundary
age maxAge is accepted, age maxAge + 1 is rejected, future timestamps
(negative age) are rejected, and unparsable strings are rejected. -/
theorem validate_timestamp_iff (now : Int) (timestamp : String) (max_age : Int) :
    validate_timestamp now timestamp max_age = true ↔
      ∃ t : Int, pyParseInt timestamp = some t ∧ 0 ≤ now - t ∧ now - t ≤ max_age := by
  unfold validate_timestamp
  cases h : pyParseInt timestamp with
  | none => simp
  | some t =>
    simp only [decide_eq_true_eq]
    constructor
    · intro ⟨h1, h2⟩
      exact ⟨t, rfl, h1, h2⟩
    · rintro ⟨t', ht', h1, h2⟩
      cases Option.some.inj ht'
      exact ⟨h1, h2⟩

/-!
HMAC-SHA256, as used by RequestSigner.sign_request_hmac and
SignatureValidator.validate_hmac_signature. The Python code delegates to
hashlib/hmac; the algorithms are embedded executably here: SHA-256 over
byte lists (bytes as Nat below 256, words as Nat below 2 ^ 32 with
explicit reduction), HMAC with the 64-byte block size of SHA-256, and
the lowercase hex digest.
-/

/-- Word size modulus for 32-bit arithmetic. -/
def w32 : Nat := 4294967296

/-- Addition modulo 2 ^ 32. -/
def add32 (a b : Nat) : Nat := (a + b) % w32

/-- Bitwise complement on 32-bit words. -/
def not32 (a : Nat) : Nat := a ^^^ (w32 - 1)

/-- Right rotation of a 32-bit word by n places. -/
def rotr32 (n a : Nat) : Nat := ((a >>> n) ||| (a <<< (32 - n))) % w32

/-- SHA-256 choice function. -/
def ch32 (e f g : Nat) : Nat := (e &&& f) ^^^ (not32 e &&& g)

/-- SHA-256 majority function. -/
def maj32 (a b c : Nat) : Nat := (a &&& b) ^^^ (a &&& c) ^^^ (b &&& c)

/-- SHA-256 big sigma 0. -/
def bigSigma0 (a : Nat) : Nat := rotr32 2 a ^^^ rotr32 13 a ^^^ rotr32 22 a

/-- SHA-256 big sigma 1. -/
def bigSigma1 (e : Nat) : Nat := rotr32 6 e ^^^ rotr32 11 e ^^^ rotr32 25 e

/-- SHA-256 small sigma 0. -/
def smallSigma0 (x : Nat) : Nat := rotr32 7 x ^^^ rotr32 18 x ^^^ (x >>> 3)

/-- SHA-256 small sigma 1. -/
def smallSigma1 (x : Nat) : Nat := rotr32 17 x ^^^ rotr32 19 x ^^^ (x >>> 10)

/-- SHA-256 round constants. -/
def sha256K : List Nat :=
  [
   1116352408, 1899447441, 3049323471, 3921009573, 961987163,
   1508970993, 2453635748, 2870763221, 3624381080, 310598401,
   607225278, 1426881987, 1925078388, 2162078206, 2614888103,
   3248222580, 3835390401, 4022224774, 264347078, 604807628,
   770255983, 1249150122, 1555081692, 1996064986, 2554220882,
   2821834349, 2952996808, 3210313671, 3336571891, 3584528711,
   113926993, 338241895, 666307205, 773529912, 1294757372,
   1396182291, 1695183700, 1986661051, 2177026350, 2456956037,
   2730485921, 2820302411, 3259730800, 3345764771, 3516065817,
   3600352804, 4094571909, 275423344, 430227734, 506948616,
   659060556, 883997877, 958139571, 1322822218, 1537002063,
   1747873779, 1955562222, 2024104815, 2227730452, 2361852424,
   2428436474, 2756734187, 3204031479, 3329325298]

/-- SHA-256 initial hash value. -/
def sha256H0 : List Nat :=
  [
   1779033703, 3144134277, 1013904242, 2773480762, 1359893119,
   2600822924, 528734635, 1541459225]

/-- Big-endian 8-byte encoding of the bit length of a message. -/
def sha256LenBytes (msgLen : Nat) : List Nat :=
  let bits := (msgLen * 8) % (2 ^ 64)
  [bits >>> 56 % 256, bits >>> 48 % 256, bits >>> 40 % 256, bits >>> 32 % 256,
   bits >>> 24 % 256, bits >>> 16 % 256, bits >>> 8 % 256, bits % 256]

/-- SHA-256 padding: append 0x80, zero bytes up to 56 mod 64, and the
8-byte big-endian bit length. -/
def sha256Pad (msg : List Nat) : List Nat :=
  let zeros := (119 - msg.length % 64) % 64
  msg ++ [0x80] ++ List.replicate zeros 0 ++ sha256LenBytes msg.length

/-- Group a byte list into big-endian 32-bit words. -/
def bytesToWords : List Nat → List Nat
  | b0 :: b1 :: b2 :: b3 :: rest =>
    (((b0 * 256 + b1) * 256 + b2) * 256 + b3) :: bytesToWords rest
  | _ => []

/-- Split a word list into 16-word blocks, with at most n blocks. -/
def toBlocksAux : Nat → List Nat → List (List Nat)
  | 0, _ => []
  | n + 1, ws => if ws.isEmpty then [] else ws.take 16 :: toBlocksAux n (ws.drop 16)

/-- Split a word list into 16-word blocks. -/
def toBlocks (ws : List Nat) : List (List Nat) := toBlocksAux (ws.length + 1) ws

/-- Message schedule: extend a 16-word block to 64 words. -/
def sha256Schedule (block : List Nat) : List Nat :=
  (List.range 48).foldl
    (fun ws _ =>
      let t := ws.length
      ws ++ [add32 (add32 (smallSigma1 (ws.getD (t - 2) 0)) (ws.getD (t - 7) 0))
                   (add32 (smallSigma0 (ws.getD (t - 15) 0)) (ws.getD (t - 16) 0))])
    block

/-- Working registers of the SHA-256 compression function. -/
structure Sha256Regs where
  a : Nat
  b : Nat
  c : Nat
  d : Nat
  e : Nat
  f : Nat
  g : Nat
  h : Nat

/-- One round of the SHA-256 compression function. -/
def sha256Round (r : Sha256Regs) (k w : Nat) : Sha256Regs :=
  let t1 := add32 (add32 (add32 r.h (bigSigma1 r.e)) (add32 (ch32 r.e r.f r.g) k)) w
  let t2 := add32 (bigSigma0 r.a) (maj32 r.a r.b r.c)
  { a := add32 t1 t2, b := r.a, c := r.b, d := r.c,
    e := add32 r.d t1, f := r.e, g := r.f, h := r.g }

/-- Compress one 16-word block into the running hash state. -/
def sha256Compress (hs : List Nat) (block : List Nat) : List Nat :=
  let ws := sha256Schedule block
  let r0 : Sha256Regs :=
    { a := hs.getD 0 0, b := hs.getD 1 0, c := hs.getD 2 0, d := hs.getD 3 0,
      e := hs.getD 4 0, f := hs.getD 5 0, g := hs.getD 6 0, h := hs.getD 7 0 }
  let r := (sha256K.zip ws).foldl (fun r kw => sha256Round r kw.1 kw.2) r0
  [add32 (hs.getD 0 0) r.a, add32 (hs.getD 1 0) r.b, add32 (hs.getD 2 0) r.c,
   add32 (hs.getD 3 0) r.d, add32 (hs.getD 4 0) r.e, add32 (hs.getD 5 0) r.f,
   add32 (hs.getD 6 0) r.g, add32 (hs.getD 7 0) r.h]

/-- Big-endian bytes of a 32-bit word. -/
def wordToBytes (w : Nat) : List Nat :=
  [w >>> 24 % 256, w >>> 16 % 256, w >>> 8 % 256, w % 256]

/-- SHA-256 digest of a byte list, as 32 bytes. -/
def sha256 (msg : List Nat) : List Nat :=
  let blocks := toBlocks (bytesToWords (sha256Pad msg))
  (blocks.foldl sha256Compress sha256H0).flatMap wordToBytes

/-- Lowercase hex character of a value below 16. -/
def hexChar (n : Nat) : Char :=
  if n < 10 then Char.ofNat (48 + n) else Char.ofNat (87 + n)

/-- Two lowercase hex characters of a byte. -/
def byteHex (b : Nat) : List Char := [hexChar (b / 16 % 16), hexChar (b % 16)]

/-- Lowercase hex string of a byte list, as produced by hexdigest. -/
def bytesToHex (bs : List Nat) : String := String.mk (bs.flatMap byteHex)

/-- HMAC-SHA256 of a message under a key (RFC 2104 with the 64-byte
SHA-256 block size), as computed by hmac.new(key, msg, sha256). -/
def hmacSha256 (key msg : List Nat) : List Nat :=
  let key1 := if key.length > 64 then sha256 key else key
  let key0 := key1 ++ List.replicate (64 - key1.length) 0
  let ipadKey := key0.map (fun b => b ^^^ 0x36)
  let opadKey := key0.map (fun b => b ^^^ 0x5c)
  sha256 (opadKey ++ sha256 (ipadKey ++ msg))

/-- UTF-8 encoding of one character. -/
def charUtf8 (c : Char) : List Nat :=
  let n := c.toNat
  if n < 0x80 then [n]
  else if n < 0x800 then
    [0xc0 ||| (n >>> 6), 0x80 ||| (n &&& 0x3f)]
  else if n < 0x10000 then
    [0xe0 ||| (n >>> 12), 0x80 ||| ((n >>> 6) &&& 0x3f), 0x80 ||| (n &&& 0x3f)]
  else
    [0xf0 ||| (n >>> 18), 0x80 ||| ((n >>> 12) &&& 0x3f),
     0x80 ||| ((n >>> 6) &&& 0x3f), 0x80 ||| (n &&& 0x3f)]

/-- UTF-8 bytes of a string, as Python str.encode. -/
def strBytes (s : String) : List Nat := s.data.flatMap charUtf8

/-- Hex digest of the HMAC-SHA256 of a message string under a key
string, both UTF-8 encoded. -/
def hmacSha256HexStr (key msg : String) : String :=
  bytesToHex (hmacSha256 (strBytes key) (strBytes msg))

/-!
RequestSigner (src/polymarket_client/auth/request_signer.py) and the
HMAC validation method of SignatureValidator. The signer object carries
the configured credentials. Python str.upper() is modelled by pyUpper
below, the ASCII case map (the HTTP methods and paths appearing in
requests are ASCII, where the two coincide).
-/

/-- ASCII uppercase map on one character. -/
def pyUpperChar (c : Char) : Char :=
  if 'a' ≤ c && c ≤ 'z' then Char.ofNat (c.toNat - 32) else c

/-- Model of Python str.upper() on ASCII strings. -/
def pyUpper (s : String) : String := String.mk (s.data.map pyUpperChar)

/-- Credentials of a RequestSigner. The private key and chain id are
not consulted by the HMAC path and are omitted. -/
structure RequestSigner where
  api_key : Option String
  api_secret : Option String
  api_passphrase : Option String

/-- Translation of RequestSigner.sign_request_hmac: require all three
credentials truthy (else ValueError), default the timestamp to the
current whole-second clock, build the message
timestamp + METHOD + path + body, and return the four headers with the
HMAC-SHA256 hex digest as signature. -/
def sign_request_hmac (signer : RequestSigner) (method path body : String)
    (timestamp : Option String) (now : Int) : Except String (List (String × String)) :=
  if !(pyTruthyStr signer.api_key && pyTruthyStr signer.api_secret
        && pyTruthyStr signer.api_passphrase) then
    .error "API key, secret, and passphrase are required for HMAC signing"
  else
    let ts := match timestamp with
      | none => toString now
      | some t => t
    let message := ts ++ pyUpper method ++ path ++ body
    let signature := hmacSha256HexStr (signer.api_secret.getD "") message
    .ok [("L2-API-KEY", signer.api_key.getD ""),
         ("L2-API-SIGNATURE", signature),
         ("L2-API-TIMESTAMP", ts),
         ("L2-API-PASSPHRASE", signer.api_passphrase.getD "")]

/-- Translation of SignatureValidator.validate_hmac_signature:
recompute the expected digest from the same message layout and compare.
The Python comparison hmac.compare_digest is string equality computed in
constant time; the surrounding try/except cannot change the boolean
outcome on string inputs. -/
def validate_hmac_signature (signature api_secret method path body timestamp : String) : Bool :=
  let message := timestamp ++ pyUpper method ++ path ++ body
  let expected_signature := hmacSha256HexStr api_secret message
  signature == expected_signature

/-- Acceptance characterization of validate_hmac_signature: it accepts
exactly the recomputed digest of the canonical message. -/
theorem validate_hmac_accepts_iff (sig secret method path body timestamp : String) :
    validate_hmac_signature sig secret method path body timestamp = true ↔
      sig = hmacSha256HexStr secret (timestamp ++ pyUpper method ++ path ++ body) := by
  simp [validate_hmac_signature]

/-- Headers produced by sign_request_hmac under truthy credentials. -/
theorem sign_request_hmac_ok (key secret pass method path body timestamp : String) (now : Int)
    (hk : key ≠ "") (hs : secret ≠ "") (hp : pass ≠ "") :
    sign_request_hmac
        { api_key := some key, api_secret := some secret, api_passphrase := some pass }
        method path body (some timestamp) now
      = .ok [("L2-API-KEY", key),
             ("L2-API-SIGNATURE",
              hmacSha256HexStr secret (timestamp ++ pyUpper method ++ path ++ body)),
             ("L2-API-TIMESTAMP", timestamp),
             ("L2-API-PASSPHRASE", pass)] := by
  simp [sign_request_hmac, pyTruthyStr, hk, hs, hp]

/-- Claim C4 counterexample: the sensitivity half of the claim fails.
Signing with method "get" and validating with the different method "GET"
(same path, body, timestamp, secret) still validates, because both sides
uppercase the method before hashing. -/
theorem sign_request_hmac_method_case :
    (("get" : String) = "GET" → False)
    ∧ sign_request_hmac
        { api_key := some "k", api_secret := some "secret", api_passphrase := some "p" }
        "get" "/" "" (some "1") 0
        = .ok [("L2-API-KEY", "k"),
               ("L2-API-SIGNATURE",
                hmacSha256HexStr "secret" ("1" ++ pyUpper "GET" ++ "/" ++ "")),
               ("L2-API-TIMESTAMP", "1"),
               ("L2-API-PASSPHRASE", "p")]
    ∧ validate_hmac_signature
        (hmacSha256HexStr "secret" ("1" ++ pyUpper "GET" ++ "/" ++ ""))
        "secret" "GET" "/" "" "1" = true := by
  have hmsg : ("1" ++ pyUpper "get" ++ "/" ++ "" : String)
      = "1" ++ pyUpper "GET" ++ "/" ++ "" := by decide
  refine ⟨by decide, ?_, ?_⟩
  · rw [sign_request_hmac_ok "k" "secret" "p" "get" "/" "" "1" 0
      (by decide) (by decide) (by decide), hmsg]
  · exact (validate_hmac_accepts_iff _ _ _ _ _ _).mpr rfl

/-- Claim C4 amended: for every (method, path, body, timestamp, secret)
with nonempty credentials, signing produces the HMAC-SHA256 hex digest
of timestamp + uppercased method + path + body as the signature header,
validation accepts exactly that digest (round trip), and acceptance of
an arbitrary candidate signature holds iff it equals that digest — so
sensitivity holds exactly up to the canonical message: inputs that leave
the canonical message and secret unchanged (such as a change only of
method letter case) are still accepted. -/
theorem hmac_sign_validate_characterization
    (key secret pass method path body timestamp sig : String) (now : Int)
    (hk : key ≠ "") (hs : secret ≠ "") (hp : pass ≠ "") :
    sign_request_hmac
        { api_key := some key, api_secret := some secret, api_passphrase := some pass }
        method path body (some timestamp) now
      = .ok [("L2-API-KEY", key),
             ("L2-API-SIGNATURE",
              hmacSha256HexStr secret (timestamp ++ pyUpper method ++ path ++ body)),
             ("L2-API-TIMESTAMP", timestamp),
             ("L2-API-PASSPHRASE", pass)]
    ∧ validate_hmac_signature
        (hmacSha256HexStr secret (timestamp ++ pyUpper method ++ path ++ body))
        secret method path body timestamp = true
    ∧ (validate_hmac_signature sig secret method path body timestamp = true
        ↔ sig = hmacSha256HexStr secret (timestamp ++ pyUpper method ++ path ++ body)) :=
  ⟨sign_request_hmac_ok key secret pass method path body timestamp now hk hs hp,
   (validate_hmac_accepts_iff _ _ _ _ _ _).mpr rfl,
   validate_hmac_accepts_iff _ _ _ _ _ _⟩

/-- Witness for the amended claim C4 at concrete inputs. -/
theorem hmac_sign_validate_characterization_witness :
    (("k" : String) ≠ "") ∧ (("secret" : String) ≠ "") ∧ (("p" : String) ≠ "")
    ∧ (sign_request_hmac
          { api_key := some "k", api_secret := some "secret", api_passphrase := some "p" }
          "GET" "/" "" (some "1") 0
        = .ok [("L2-API-KEY", "k"),
               ("L2-API-SIGNATURE",
                hmacSha256HexStr "secret" ("1" ++ pyUpper "GET" ++ "/" ++ "")),
               ("L2-API-TIMESTAMP", "1"),
               ("L2-API-PASSPHRASE", "p")]
      ∧ validate_hmac_signature
          (hmacSha256HexStr "secret" ("1" ++ pyUpper "GET" ++ "/" ++ ""))
          "secret" "GET" "/" "" "1" = true
      ∧ (validate_hmac_signature
            (hmacSha256HexStr "secret" ("1" ++ pyUpper "GET" ++ "/" ++ ""))
            "secret" "GET" "/" "" "1" = true
          ↔ hmacSha256HexStr "secret" ("1" ++ pyUpper "GET" ++ "/" ++ "")
              = hmacSha256HexStr "secret" ("1" ++ pyUpper "GET" ++ "/" ++ ""))) :=
  ⟨by decide, by decide, by decide,
   hmac_sign_validate_characterization "k" "secret" "p" "GET" "/" "" "1"
     (hmacSha256HexStr "secret" ("1" ++ pyUpper "GET" ++ "/" ++ "")) 0
     (by decide) (by decide) (by decide)⟩

/-!
Pagination (src/polymarket_client/pagination.py and
src/polymarket_client/models/pagination.py). The kwargs dictionaries
flowing through fetch_all and fetch_page only ever carry the keys
"limit" and "offset", modelled by the Params record with optional
fields (a missing key is `none`). The injected fetch function takes
(limit, offset). Pydantic model validation of items is the identity on
already-valid items and is not modelled. The unbounded while loop of
fetch_all is given explicit fuel, returning `none` when the fuel runs
out; the termination claims are proved by exhibiting sufficient fuel.
-/

/-- The kwargs of one fetch_page call: optional limit and offset keys. -/
structure Params where
  limit : Option Nat
  offset : Option Nat

/-- Translation of OffsetPaginationStrategy: the injected fetch
function, the page size (already clamped by the constructor), the
maximum page size, and the initial offset. -/
structure OffsetPaginationStrategy (α : Type) where
  fetch_func : Nat → Nat → List α
  page_size : Nat
  max_page_size : Nat
  current_offset : Nat

/-- Constructor of OffsetPaginationStrategy: clamps page_size to
max_page_size. -/
def mkOffsetStrategy (fetch_func : Nat → Nat → List α)
    (page_size max_page_size initial_offset : Nat) : OffsetPaginationStrategy α :=
  { fetch_func := fetch_func, page_size := min page_size max_page_size,
    max_page_size := max_page_size, current_offset := initial_offset }

/-- Translation of OffsetPaginationStrategy.fetch_page: default the
limit to the strategy page size and the offset to the current offset,
call the fetch function, and report has_more iff the page came back with
exactly the requested number of items. -/
def OffsetPaginationStrategy.fetch_page (s : OffsetPaginationStrategy α)
    (p : Params) : List α × Bool :=
  let lim := p.limit.getD s.page_size
  let off := p.offset.getD s.current_offset
  let data := s.fetch_func lim off
  (data, data.length == lim)

/-- Translation of OffsetPaginationStrategy.get_next_page_params:
advance the offset by the current limit, defaulting a missing offset to
0 and a missing limit to the strategy page size. -/
def OffsetPaginationStrategy.get_next_page_params (s : OffsetPaginationStrategy α)
    (p : Params) : Params :=
  { p with offset := some (p.offset.getD 0 + p.limit.getD s.page_size) }

/-- Translation of the Paginator configuration. -/
structure Paginator (α : Type) where
  strategy : OffsetPaginationStrategy α
  default_page_size : Nat
  max_total_results : Option Nat
  auto_paginate : Bool

/-- The while loop of Paginator.fetch_all, with fuel. Each iteration:
break when a truthy limit is already reached; otherwise, under a truthy
limit, set the page limit to min(default_page_size, remaining); fetch a
page and extend the accumulator; break when the page was short or
auto-pagination is off, when a truthy limit is reached, or when a truthy
max_total_results is reached; otherwise advance the offset and loop. -/
def Paginator.fetch_all_loop (p : Paginator α) (limit : Option Nat) :
    Nat → List α → Params → Option (List α)
  | 0, _, _ => none
  | fuel + 1, acc, params =>
    if pyTruthyNat limit && decide (limit.getD 0 ≤ acc.length) then some acc
    else
      let params1 :=
        if pyTruthyNat limit then
          { params with limit := some (min p.default_page_size (limit.getD 0 - acc.length)) }
        else params
      let pr := p.strategy.fetch_page params1
      let acc1 := acc ++ pr.1
      if !pr.2 || !p.auto_paginate then some acc1
      else if pyTruthyNat limit && decide (limit.getD 0 ≤ acc1.length) then some acc1
      else if pyTruthyNat p.max_total_results
              && decide (p.max_total_results.getD 0 ≤ acc1.length) then some acc1
      else Paginator.fetch_all_loop p limit fuel acc1
        (p.strategy.get_next_page_params params1)

/-- Translation of Paginator.fetch_all: when auto-pagination is off and
no limit is given, the limit becomes the default page size; run the
loop; finally truncate to the limit when a truthy limit was overshot. -/
def Paginator.fetch_all (p : Paginator α) (limit0 : Option Nat) (kwargs : Params)
    (fuel : Nat) : Option (List α) :=
  let limit := if !p.auto_paginate && limit0.isNone then some p.default_page_size else limit0
  (Paginator.fetch_all_loop p limit fuel [] kwargs).map (fun res =>
    if pyTruthyNat limit && decide (limit.getD 0 < res.length) then
      res.take (limit.getD 0)
    else res)

/-- Translation of PaginationInfo (total_count and total_pages stay
None and are omitted). -/
structure PaginationInfo where
  page : Nat
  per_page : Nat
  has_next : Bool
  has_previous : Bool

/-- Translation of PaginationInfo.from_offset: page is the floor
quotient plus one (ZeroDivisionError on a zero limit is modelled by
`none`), has_next compares the returned count with the requested limit,
has_previous is positivity of the offset. -/
def PaginationInfo.from_offset (offset limit : Nat) (total_returned : Nat)
    (requested_limit : Nat) : Option PaginationInfo :=
  if limit == 0 then none
  else some
    { page := offset / limit + 1
      per_page := limit
      has_next := total_returned == requested_limit
      has_previous := decide (0 < offset) }

/-- Translation of PaginatedResponse. -/
structure PaginatedResponse (α : Type) where
  data : List α
  pagination : PaginationInfo

/-- Translation of Paginator.fetch_paginated: run fetch_all, then build
the pagination info. The kwargs of fetch_paginated can never carry a
"limit" key (a limit argument binds the named parameter instead), so
the page_size read from kwargs is always the default page size; the
requested limit is `limit or page_size` in the Python truthiness
sense. -/
def Paginator.fetch_paginated (p : Paginator α) (limit : Option Nat)
    (offsetKw : Option Nat) (fuel : Nat) : Option (PaginatedResponse α) :=
  match p.fetch_all limit { limit := none, offset := offsetKw } fuel with
  | none => none
  | some data =>
    let offset := offsetKw.getD 0
    let page_size := p.default_page_size
    let requested_limit := if pyTruthyNat limit then limit.getD 0 else page_size
    (PaginationInfo.from_offset offset page_size data.length requested_limit).map
      (fun info => { data := data, pagination := info })

/-- A paginator over a finite source list served by offset slicing:
the fetch function returns full pages of the requested size followed by
one final short page. Both the strategy page size and the paginator
default page size are P, as configured by create_offset_paginator from
one config value. -/
def slicePaginator (s : List α) (P : Nat) (auto : Bool) : Paginator α :=
  { strategy :=
      { fetch_func := fun lim off => (s.drop off).take lim
        page_size := P
        max_page_size := P
        current_offset := 0 }
    default_page_size := P
    max_total_results := none
    auto_paginate := auto }

/-- Claim C3 counterexample: with a two-item source and page size 2
under auto-pagination, the traversal fetches the full page at offset 0
and then the empty page at offset 2, so the last fetched page has
length 0, different from the requested page size 2 — yet has_next comes
out true, because has_next compares the total returned count (2) with
the requested limit (the default page size 2), not the last page
length. -/
theorem fetch_paginated_has_next_counterexample :
    ((slicePaginator ([10, 20] : List Nat) 2 true).fetch_paginated none none 5).map
        (fun r => r.pagination.has_next) = some true
    ∧ (slicePaginator ([10, 20] : List Nat) 2 true).strategy.fetch_func 2 0 = [10, 20]
    ∧ (slicePaginator ([10, 20] : List Nat) 2 true).strategy.fetch_func 2 2 = []
    ∧ ((slicePaginator ([10, 20] : List Nat) 2 true).strategy.fetch_func 2 2).length ≠ 2 := by
  exact ⟨rfl, rfl, rfl, by decide⟩

/-- Claim C3 amended: in every fetch_paginated response, has_next is
true iff the total number of returned items equals the requested limit
(the limit argument when truthy, otherwise the default page size); it
is not determined by the length of the last fetched page. -/
theorem fetch_paginated_has_next_iff (p : Paginator α) (limit offsetKw : Option Nat)
    (fuel : Nat) (r : PaginatedResponse α)
    (h : p.fetch_paginated limit offsetKw fuel = some r) :
    r.pagination.has_next = true ↔
      r.data.length = (if pyTruthyNat limit then limit.getD 0 else p.default_page_size) := by
  unfold Paginator.fetch_paginated at h
  cases hfa : p.fetch_all limit { limit := none, offset := offsetKw } fuel with
  | none => rw [hfa] at h; cases h
  | some data =>
    rw [hfa] at h
    unfold PaginationInfo.from_offset at h
    by_cases hz : p.default_page_size = 0
    · simp [hz] at h
    · simp only [beq_iff_eq, hz, if_false, Option.map_some] at h
      cases h
      simp [beq_iff_eq]

/-- Response of the witness run for the amended claim C3. -/
def c3resp : PaginatedResponse Nat :=
  { data := [10, 20, 30]
    pagination := { page := 1, per_page := 2, has_next := false, has_previous := false } }

/-- Witness for the amended claim C3 at a concrete run. -/
theorem fetch_paginated_has_next_iff_witness :
    (slicePaginator ([10, 20, 30] : List Nat) 2 true).fetch_paginated none none 5
      = some c3resp
    ∧ (c3resp.pagination.has_next = true ↔
        c3resp.data.length
          = (if pyTruthyNat none then (none : Option Nat).getD 0
             else (slicePaginator ([10, 20, 30] : List Nat) 2 true).default_page_size)) :=
  ⟨rfl, fetch_paginated_has_next_iff (slicePaginator ([10, 20, 30] : List Nat) 2 true) none none 5 c3resp (by rfl)⟩

/-- Simp lemma: a missing kwarg is falsy. -/
@[simp] theorem pyTruthyNat_none : pyTruthyNat none = false := rfl

/-- Simp lemma: truthiness of a present int kwarg. -/
@[simp] theorem pyTruthyNat_some (n : Nat) : pyTruthyNat (some n) = !(n == 0) := rfl

/-- Simp lemma: pagination flag of the sliced paginator. -/
@[simp] theorem slicePaginator_auto (s : List α) (P : Nat) (b : Bool) :
    (slicePaginator s P b).auto_paginate = b := rfl

/-- Simp lemma: default page size of the sliced paginator. -/
@[simp] theorem slicePaginator_dps (s : List α) (P : Nat) (b : Bool) :
    (slicePaginator s P b).default_page_size = P := rfl

/-- Simp lemma: result cap of the sliced paginator. -/
@[simp] theorem slicePaginator_mtr (s : List α) (P : Nat) (b : Bool) :
    (slicePaginator s P b).max_total_results = none := rfl

/-- Simp lemma: one page fetch of the sliced paginator. -/
@[simp] theorem slicePaginator_fetch_page (s : List α) (P : Nat) (b : Bool) (p : Params) :
    (slicePaginator s P b).strategy.fetch_page p
      = ((s.drop (p.offset.getD 0)).take (p.limit.getD P),
         ((s.drop (p.offset.getD 0)).take (p.limit.getD P)).length == p.limit.getD P) := rfl

/-- Simp lemma: successor params of the sliced paginator. -/
@[simp] theorem slicePaginator_next (s : List α) (P : Nat) (b : Bool) (p : Params) :
    (slicePaginator s P b).strategy.get_next_page_params p
      = { p with offset := some (p.offset.getD 0 + p.limit.getD P) } := rfl

/-- Loop invariant of fetch_all over a sliced source with no limit:
with enough fuel, the loop appends the whole remainder of the source
from the current offset. -/
theorem fetch_all_loop_slice_nolimit (s : List α) (P : Nat) (hP : 1 ≤ P) :
    ∀ fuel (o? : Option Nat) (acc : List α), s.length - o?.getD 0 < fuel →
      Paginator.fetch_all_loop (slicePaginator s P true) none fuel acc
        { limit := none, offset := o? } = some (acc ++ s.drop (o?.getD 0)) := by
  intro fuel
  induction fuel with
  | zero => intro o? acc h; omega
  | succ f ih =>
    intro o? acc h
    rw [Paginator.fetch_all_loop]
    simp only [pyTruthyNat_none, Bool.false_and, Bool.false_eq_true, if_false,
      slicePaginator_fetch_page, slicePaginator_next, slicePaginator_auto,
      slicePaginator_mtr, Option.getD_none, Bool.not_true, Bool.or_false]
    by_cases hfull : ((s.drop (o?.getD 0)).take P).length = P
    · simp only [hfull, beq_self_eq_true, Bool.not_true, Bool.false_or, if_false,
        Bool.false_eq_true]
      have hlen : P ≤ (s.drop (o?.getD 0)).length := by
        have := List.length_take P (s.drop (o?.getD 0))
        omega
      have hrec := ih (some (o?.getD 0 + P)) (acc ++ (s.drop (o?.getD 0)).take P)
        (by simp only [Option.getD_some]
            have := List.length_drop (o?.getD 0) s
            omega)
      simp only [Option.getD_some] at hrec
      rw [hrec]
      have hjoin : (s.drop (o?.getD 0)).take P ++ s.drop (o?.getD 0 + P)
          = s.drop (o?.getD 0) := by
        have h1 : s.drop (o?.getD 0 + P) = (s.drop (o?.getD 0)).drop P := by
          rw [List.drop_drop]
        rw [h1, List.take_append_drop]
      rw [List.append_assoc, hjoin]
    · have hshort : (s.drop (o?.getD 0)).length < P := by
        have := List.length_take P (s.drop (o?.getD 0))
        omega
      have htake : (s.drop (o?.getD 0)).take P = s.drop (o?.getD 0) :=
        List.take_of_length_le (le_of_lt hshort)
      rw [htake]
      have hne : ((s.drop (o?.getD 0)).length == P) = false := by
        simp only [beq_eq_false_iff_ne, ne_eq]
        omega
      rw [hne]
      simp

/-- Loop invariant of fetch_all over a sliced source with a truthy
limit k: with enough fuel, the loop appends exactly the next
k - acc.length items from the current offset (or the whole remainder
when the source runs out first), never overshooting. -/
theorem fetch_all_loop_slice_limit (s : List α) (P k : Nat) (hP : 1 ≤ P) (hk : 1 ≤ k) :
    ∀ fuel (o? lp : Option Nat) (acc : List α),
      acc.length < k → s.length - o?.getD 0 < fuel →
      Paginator.fetch_all_loop (slicePaginator s P true) (some k) fuel acc
        { limit := lp, offset := o? }
        = some (acc ++ (s.drop (o?.getD 0)).take (k - acc.length)) := by
  intro fuel
  induction fuel with
  | zero => intro o? lp acc hacc h; omega
  | succ f ih =>
    intro o? lp acc hacc h
    rw [Paginator.fetch_all_loop]
    have hkt : (!(k == 0)) = true := by
      simp only [Bool.not_eq_true', beq_eq_false_iff_ne, ne_eq]
      omega
    have hnr : decide ((some k).getD 0 ≤ acc.length) = false := by
      simp only [Option.getD_some, decide_eq_false_iff_not, not_le]
      omega
    simp only [pyTruthyNat_some, hkt, hnr, Bool.and_false, Bool.false_eq_true, if_false,
      Bool.true_and, if_true, Option.getD_some, slicePaginator_dps,
      slicePaginator_fetch_page, slicePaginator_next, slicePaginator_auto,
      slicePaginator_mtr, pyTruthyNat_none, Bool.not_true, Bool.or_false,
      Bool.false_and]
    rw [if_neg (by simp only [decide_eq_true_eq]; omega :
      ¬(decide (k ≤ acc.length) = true))]
    by_cases hfull : ((s.drop (o?.getD 0)).take (min P (k - acc.length))).length
        = min P (k - acc.length)
    · simp only [hfull, beq_self_eq_true, Bool.not_true, Bool.false_or, Bool.false_eq_true,
        if_false]
      have hlen : min P (k - acc.length) ≤ (s.drop (o?.getD 0)).length := by
        have := List.length_take (min P (k - acc.length)) (s.drop (o?.getD 0))
        omega
      by_cases hreach : k ≤ (acc ++ (s.drop (o?.getD 0)).take (min P (k - acc.length))).length
      · have hd : decide (k ≤ (acc ++ (s.drop (o?.getD 0)).take
            (min P (k - acc.length))).length) = true := decide_eq_true hreach
        simp only [hd, Bool.and_true, hkt, if_true]
        have hlim : min P (k - acc.length) = k - acc.length := by
          simp only [List.length_append, hfull] at hreach
          omega
        rw [hlim]
      · have hd : decide (k ≤ (acc ++ (s.drop (o?.getD 0)).take
            (min P (k - acc.length))).length) = false :=
          decide_eq_false hreach
        simp only [hd, Bool.and_false, Bool.false_eq_true, if_false]
        have hlim : min P (k - acc.length) = P := by
          simp only [List.length_append, hfull] at hreach
          omega
        rw [hlim] at hfull hlen ⊢
        have hacc1 : (acc ++ (s.drop (o?.getD 0)).take P).length < k := by
          simp only [List.length_append, hfull]
          simp only [List.length_append, hfull, hlim] at hreach
          omega
        have hrec := ih (some (o?.getD 0 + P)) (some P) (acc ++ (s.drop (o?.getD 0)).take P)
          hacc1
          (by simp only [Option.getD_some]
              have := List.length_drop (o?.getD 0) s
              omega)
        simp only [Option.getD_some] at hrec
        rw [hrec]
        have hsplit : (s.drop (o?.getD 0)).take P
              ++ (s.drop (o?.getD 0 + P)).take (k - (acc ++ (s.drop (o?.getD 0)).take P).length)
            = (s.drop (o?.getD 0)).take (k - acc.length) := by
          have h1 : s.drop (o?.getD 0 + P) = (s.drop (o?.getD 0)).drop P := by
            rw [List.drop_drop]
          have h2 : k - acc.length = P + (k - (acc ++ (s.drop (o?.getD 0)).take P).length) := by
            simp only [List.length_append, hfull]
            simp only [List.length_append, hfull] at hreach
            omega
          rw [h1, h2, List.take_add]
        rw [List.append_assoc, hsplit]
    · have hshort : (s.drop (o?.getD 0)).length < min P (k - acc.length) := by
        have := List.length_take (min P (k - acc.length)) (s.drop (o?.getD 0))
        omega
      have htake : (s.drop (o?.getD 0)).take (min P (k - acc.length)) = s.drop (o?.getD 0) :=
        List.take_of_length_le (le_of_lt hshort)
      rw [htake]
      have hne : ((s.drop (o?.getD 0)).length == min P (k - acc.length)) = false := by
        simp only [beq_eq_false_iff_ne, ne_eq]
        omega
      rw [hne]
      have htake2 : (s.drop (o?.getD 0)).take (k - acc.length) = s.drop (o?.getD 0) :=
        List.take_of_length_le (by omega)
      rw [htake2]
      simp

/-- Claim C6: over a fetch function serving offset slices of a finite
source (full pages of the requested size, then one final short page),
with auto-pagination enabled and positive page size: fetch_all with no
limit terminates and returns the whole source, and fetch_all with a
positive limit k returns the first k items — all items when the source
is exhausted before k items accumulate (List.take k covers both). The
fuel bound s.length + 1 suffices, which is the termination half of the
claim. -/
theorem fetch_all_slice_complete (s : List α) (P k fuel : Nat)
    (hP : 1 ≤ P) (hk : 1 ≤ k) (hfuel : s.length < fuel) :
    (slicePaginator s P true).fetch_all none { limit := none, offset := none } fuel = some s
    ∧ (slicePaginator s P true).fetch_all (some k) { limit := none, offset := none } fuel
        = some (s.take k) := by
  constructor
  · unfold Paginator.fetch_all
    simp only [slicePaginator_auto, Bool.not_true, Bool.false_and, Bool.false_eq_true,
      if_false, Option.isNone_none]
    rw [fetch_all_loop_slice_nolimit s P hP fuel none []
      (by simp only [Option.getD_none]; omega)]
    simp
  · unfold Paginator.fetch_all
    simp only [slicePaginator_auto, Bool.not_true, Bool.false_and, Bool.false_eq_true,
      if_false]
    rw [fetch_all_loop_slice_limit s P k hP hk fuel none none []
      (by simpa using hk) (by simp only [Option.getD_none]; omega)]
    simp only [Option.map_some', List.length_nil, Nat.sub_zero, Option.getD_none,
      List.drop_zero, List.nil_append]
    have hnotrunc : decide ((some k).getD 0 < (s.take k).length) = false := by
      simp only [Option.getD_some, decide_eq_false_iff_not, not_lt, List.length_take]
      omega
    rw [hnotrunc]
    simp

/-- Witness for claim C6 at a concrete source, page size, limit and
fuel. -/
theorem fetch_all_slice_complete_witness :
    1 ≤ 2 ∧ 1 ≤ 3 ∧ ([1, 2, 3, 4, 5] : List Nat).length < 6
    ∧ ((slicePaginator ([1, 2, 3, 4, 5] : List Nat) 2 true).fetch_all none
          { limit := none, offset := none } 6 = some [1, 2, 3, 4, 5]
       ∧ (slicePaginator ([1, 2, 3, 4, 5] : List Nat) 2 true).fetch_all (some 3)
          { limit := none, offset := none } 6 = some (([1, 2, 3, 4, 5] : List Nat).take 3)) :=
  ⟨by decide, by decide, by decide,
   fetch_all_slice_complete ([1, 2, 3, 4, 5] : List Nat) 2 3 6
     (by decide) (by decide) (by decide)⟩

/-- Helper: the fetch_all loop treats any two falsy limits (None and 0)
identically, because the limit is consulted only through its
truthiness. -/
theorem fetch_all_loop_falsy_limit (p : Paginator α) (l1 l2 : Option Nat)
    (h1 : pyTruthyNat l1 = false) (h2 : pyTruthyNat l2 = false) :
    ∀ fuel (acc : List α) (params : Params),
      Paginator.fetch_all_loop p l1 fuel acc params
        = Paginator.fetch_all_loop p l2 fuel acc params := by
  intro fuel
  induction fuel with
  | zero => intro acc params; rfl
  | succ f ih =>
    intro acc params
    rw [Paginator.fetch_all_loop, Paginator.fetch_all_loop]
    simp only [h1, h2, Bool.false_and, Bool.false_eq_true, if_false]
    rcases hm : p.strategy.fetch_page params with ⟨data, more⟩
    simp only []
    by_cases hstop : (!more || !p.auto_paginate) = true
    · rw [if_pos hstop, if_pos hstop]
    · rw [if_neg hstop, if_neg hstop]
      by_cases hmtr : (pyTruthyNat p.max_total_results
          && decide (p.max_total_results.getD 0 ≤ (acc ++ data).length)) = true
      · rw [if_pos hmtr, if_pos hmtr]
      · rw [if_neg hmtr, if_neg hmtr]
        exact ih _ _

/-- Claim C10: fetch_all treats limit = 0 as no limit. With
auto-pagination enabled, fetch_all with limit 0 behaves exactly as
fetch_all with limit None (so it fetches and returns all pages); with
auto-pagination disabled, limit 0 is not replaced by the default page
size — only None is — so the single fetched page is requested at the
kwargs limit or, failing that, the strategy page size, and is returned
untruncated. -/
theorem fetch_all_limit_zero (strat : OffsetPaginationStrategy α) (dps : Nat)
    (mtr : Option Nat) (kwargs : Params) (fuel : Nat) :
    (Paginator.fetch_all
        { strategy := strat, default_page_size := dps,
          max_total_results := mtr, auto_paginate := true } (some 0) kwargs fuel
      = Paginator.fetch_all
          { strategy := strat, default_page_size := dps,
            max_total_results := mtr, auto_paginate := true } none kwargs fuel)
    ∧ (Paginator.fetch_all
        { strategy := strat, default_page_size := dps,
          max_total_results := mtr, auto_paginate := false } (some 0) kwargs (fuel + 1)
      = some (strat.fetch_func (kwargs.limit.getD strat.page_size)
          (kwargs.offset.getD strat.current_offset))) := by
  constructor
  · unfold Paginator.fetch_all
    simp only [Bool.not_true, Bool.false_and, Bool.false_eq_true, if_false]
    rw [fetch_all_loop_falsy_limit _ (some 0) none rfl rfl]
    simp
  · unfold Paginator.fetch_all
    simp only [Bool.not_false, Option.isNone_some, Bool.and_false, Bool.false_eq_true,
      if_false, Bool.true_and]
    rw [Paginator.fetch_all_loop]
    simp [OffsetPaginationStrategy.fetch_page]

/-!
TokenBucketRateLimiter and RateLimitedHTTPAdapter
(src/polymarket_client/rate_limiter.py). A bucket is the per-key state
dict; clock readings (time.time) are passed in explicitly, and the
float arithmetic on tokens and seconds is modelled exactly over the
rationals. One iteration of the while loop of wait_if_needed is
modelled by wait_iteration, with the clock readings of the iteration
taken at one instant `now`; its outcome is proceeding (return),
raising RateLimitError with the computed retry_after, or sleeping
min(wait_time, 0.1) before the next iteration.
-/

/-- Per-key bucket state of TokenBucketRateLimiter. -/
structure Bucket where
  tokens : ℚ
  last_update : ℚ

/-- A fresh bucket, as produced by the defaultdict factory: tokens
start at the burst capacity, last_update at the creation instant. -/
def freshBucket (burst_capacity : ℚ) (now : ℚ) : Bucket :=
  { tokens := burst_capacity, last_update := now }

/-- Translation of TokenBucketRateLimiter._refill_tokens: add
elapsed * rate tokens, saturating at the burst capacity, and stamp the
current time. -/
def refill_tokens (rate burst_capacity : ℚ) (now : ℚ) (b : Bucket) : Bucket :=
  { tokens := min burst_capacity (b.tokens + (now - b.last_update) * rate)
    last_update := now }

/-- Translation of TokenBucketRateLimiter.can_proceed (on the bucket of
the given key): refill, then report whether at least one token is
available. The refill mutates the bucket, so the updated bucket is
returned alongside. -/
def can_proceed (rate burst_capacity : ℚ) (now : ℚ) (b : Bucket) : Bool × Bucket :=
  let b1 := refill_tokens rate burst_capacity now b
  (decide (1 ≤ b1.tokens), b1)

/-- Outcome of one iteration of the wait_if_needed loop. -/
inductive WaitOutcome
  | proceed
  | rateLimitErr (retry_after : ℚ)
  | sleep (duration : ℚ)
deriving DecidableEq

/-- Translation of one iteration of the while loop of
TokenBucketRateLimiter.wait_if_needed: refill; if at least one token is
available, consume it and return; otherwise compute
wait_time = (1 - tokens) / rate and, when a timeout is set and
elapsed + wait_time exceeds it, raise RateLimitError carrying
retry_after = wait_time; otherwise sleep min(wait_time, 0.1) and
iterate. -/
def wait_iteration (rate burst_capacity : ℚ) (now start_time : ℚ)
    (timeout : Option ℚ) (b : Bucket) : WaitOutcome × Bucket :=
  let b1 := refill_tokens rate burst_capacity now b
  if 1 ≤ b1.tokens then (.proceed, { b1 with tokens := b1.tokens - 1 })
  else
    let wait_time := (1 - b1.tokens) / rate
    match timeout with
    | some t =>
      if now - start_time + wait_time > t then (.rateLimitErr wait_time, b1)
      else (.sleep (min wait_time (1 / 10)), b1)
    | none => (.sleep (min wait_time (1 / 10)), b1)

/-- Bucket state after n wait_if_needed calls on one key, all issued at
the bucket creation instant t0. -/
def nthBucket (rate : ℚ) (C : Nat) (t0 : ℚ) : Nat → Bucket
  | 0 => freshBucket (C : ℚ) t0
  | n + 1 => (wait_iteration rate (C : ℚ) t0 t0 none (nthBucket rate C t0 n)).2

/-- Bucket state along the burst: after i ≤ C immediate calls, C - i
tokens remain and the stamp is unchanged. -/
theorem nthBucket_run (rate : ℚ) (C : Nat) (t0 : ℚ) :
    ∀ i, i ≤ C → nthBucket rate C t0 i
      = { tokens := (C : ℚ) - (i : ℚ), last_update := t0 } := by
  intro i
  induction i with
  | zero => intro _; simp [nthBucket, freshBucket]
  | succ n ih =>
    intro hle
    have hn : n ≤ C := by omega
    rw [nthBucket, ih hn]
    have htok : ((C : ℚ) - (n : ℚ)) ≥ 1 := by
      have : (n : ℚ) + 1 ≤ (C : ℚ) := by exact_mod_cast hle
      linarith
    have hmin : min (C : ℚ) ((C : ℚ) - (n : ℚ)) = (C : ℚ) - (n : ℚ) := by
      apply min_eq_right
      have : (0 : ℚ) ≤ (n : ℚ) := by positivity
      linarith
    simp only [wait_iteration, refill_tokens, sub_self, zero_mul, add_zero, hmin]
    rw [if_pos htok]
    simp only [Nat.cast_succ]
    congr 1
    ring

/-- Claim C5: on a fresh token bucket of integer capacity C ≥ 1 with
positive rate, the first C wait_if_needed calls issued at the creation
instant each return on their first loop iteration (no sleeping, any
timeout), and the (C+1)-th call issued at the same instant with
timeout 0 raises RateLimitError carrying retry_after = 1 / rate, which
is positive. -/
theorem token_bucket_burst (rate : ℚ) (C : Nat) (t0 : ℚ)
    (hC : 1 ≤ C) (hr : 0 < rate) :
    (∀ i, i < C → ∀ timeout,
        (wait_iteration rate (C : ℚ) t0 t0 timeout (nthBucket rate C t0 i)).1 = .proceed
        ∧ (wait_iteration rate (C : ℚ) t0 t0 timeout (nthBucket rate C t0 i)).2
            = nthBucket rate C t0 (i + 1))
    ∧ (wait_iteration rate (C : ℚ) t0 t0 (some 0) (nthBucket rate C t0 C)).1
        = .rateLimitErr (1 / rate)
    ∧ 0 < 1 / rate := by
  refine ⟨?_, ?_, one_div_pos.mpr hr⟩
  · intro i hi timeout
    rw [nthBucket_run rate C t0 i (by omega)]
    have htok : ((C : ℚ) - (i : ℚ)) ≥ 1 := by
      have : (i : ℚ) + 1 ≤ (C : ℚ) := by exact_mod_cast hi
      linarith
    have hmin : min (C : ℚ) ((C : ℚ) - (i : ℚ)) = (C : ℚ) - (i : ℚ) := by
      apply min_eq_right
      have : (0 : ℚ) ≤ (i : ℚ) := by positivity
      linarith
    constructor
    · simp only [wait_iteration, refill_tokens, sub_self, zero_mul, add_zero, hmin]
      rw [if_pos htok]
    · rw [nthBucket, nthBucket_run rate C t0 i (by omega)]
      simp only [wait_iteration, refill_tokens, sub_self, zero_mul, add_zero, hmin]
      rw [if_pos htok, if_pos htok]
  · rw [nthBucket_run rate C t0 C (le_refl C)]
    have hmin : min (C : ℚ) (0 : ℚ) = 0 := min_eq_right (by positivity)
    simp only [wait_iteration, refill_tokens, sub_self, zero_mul, add_zero, hmin]
    rw [if_neg (by norm_num)]
    have h1 : 0 < 1 / rate := one_div_pos.mpr hr
    rw [if_pos (by simp only [sub_self, zero_add, sub_zero, gt_iff_lt]; linarith)]
    norm_num

/-- Witness for claim C5 with rate 5 per second and burst 5 at clock
0. -/
theorem token_bucket_burst_witness :
    1 ≤ 5 ∧ (0 : ℚ) < 5
    ∧ ((∀ i, i < 5 → ∀ timeout,
          (wait_iteration 5 ((5 : Nat) : ℚ) 0 0 timeout (nthBucket 5 5 0 i)).1 = .proceed
          ∧ (wait_iteration 5 ((5 : Nat) : ℚ) 0 0 timeout (nthBucket 5 5 0 i)).2
              = nthBucket 5 5 0 (i + 1))
       ∧ (wait_iteration 5 ((5 : Nat) : ℚ) 0 0 (some 0) (nthBucket 5 5 0 5)).1
           = .rateLimitErr (1 / 5)
       ∧ (0 : ℚ) < 1 / 5) :=
  ⟨by decide, by norm_num, token_bucket_burst 5 5 0 (by decide) (by norm_num)⟩

/-- Claim C8: every bucket operation preserves the invariant
0 ≤ tokens ≤ capacity under a nonnegative rate and a clock that has not
gone backwards: the refill saturates at the burst capacity, can_proceed
only refills, and a wait_if_needed iteration decrements only when at
least one token is present. -/
theorem token_bucket_invariant (rate burst_capacity now start_time : ℚ)
    (timeout : Option ℚ) (b : Bucket)
    (hr : 0 ≤ rate) (h0 : 0 ≤ b.tokens) (hc : b.tokens ≤ burst_capacity)
    (hnow : b.last_update ≤ now) :
    (0 ≤ (refill_tokens rate burst_capacity now b).tokens
      ∧ (refill_tokens rate burst_capacity now b).tokens ≤ burst_capacity)
    ∧ (0 ≤ (can_proceed rate burst_capacity now b).2.tokens
      ∧ (can_proceed rate burst_capacity now b).2.tokens ≤ burst_capacity)
    ∧ (0 ≤ (wait_iteration rate burst_capacity now start_time timeout b).2.tokens
      ∧ (wait_iteration rate burst_capacity now start_time timeout b).2.tokens
          ≤ burst_capacity) := by
  have hburst : (0 : ℚ) ≤ burst_capacity := le_trans h0 hc
  have hadd : 0 ≤ b.tokens + (now - b.last_update) * rate := by
    have : 0 ≤ (now - b.last_update) * rate :=
      mul_nonneg (by linarith) hr
    linarith
  have hrefill : 0 ≤ (refill_tokens rate burst_capacity now b).tokens
      ∧ (refill_tokens rate burst_capacity now b).tokens ≤ burst_capacity := by
    constructor
    · exact le_min hburst hadd
    · exact min_le_left _ _
  refine ⟨hrefill, hrefill, ?_⟩
  unfold wait_iteration
  by_cases htok : 1 ≤ (refill_tokens rate burst_capacity now b).tokens
  · rw [if_pos htok]
    constructor
    · simp only []
      linarith
    · simp only []
      have := hrefill.2
      linarith
  · rw [if_neg htok]
    cases timeout with
    | none => exact hrefill
    | some t =>
      dsimp only []
      by_cases hto : now - start_time + (1 - (refill_tokens rate burst_capacity now b).tokens) / rate > t
      · rw [if_pos hto]
        exact hrefill
      · rw [if_neg hto]
        exact hrefill

/-- Witness for claim C8 at a concrete bucket and clock. -/
theorem token_bucket_invariant_witness :
    (0 : ℚ) ≤ 1 ∧ (0 : ℚ) ≤ 1 ∧ (1 : ℚ) ≤ 2 ∧ (0 : ℚ) ≤ 3
    ∧ ((0 ≤ (refill_tokens 1 2 3 { tokens := 1, last_update := 0 }).tokens
          ∧ (refill_tokens 1 2 3 { tokens := 1, last_update := 0 }).tokens ≤ 2)
       ∧ (0 ≤ (can_proceed 1 2 3 { tokens := 1, last_update := 0 }).2.tokens
          ∧ (can_proceed 1 2 3 { tokens := 1, last_update := 0 }).2.tokens ≤ 2)
       ∧ (0 ≤ (wait_iteration 1 2 3 0 none { tokens := 1, last_update := 0 }).2.tokens
          ∧ (wait_iteration 1 2 3 0 none { tokens := 1, last_update := 0 }).2.tokens ≤ 2)) :=
  ⟨by norm_num, by norm_num, by norm_num, by norm_num,
   token_bucket_invariant 1 2 3 0 none { tokens := 1, last_update := 0 }
     (by norm_num) (by norm_num) (by norm_num) (by norm_num)⟩

/-!
RateLimitedHTTPAdapter.send: the rate limiter attached by the
constructor is always an object (a falsy one is replaced by a default
TokenBucketRateLimiter), so the limiter is always consulted. The
outcome of the wait_if_needed call and the outcome of the delegated
inner HTTPAdapter.send are passed in as values.
-/

/-- The RateLimitError exception: it carries an optional retry_after. -/
structure RateLimitErrorModel where
  retry_after : Option ℚ

/-- Outcome of RateLimitedHTTPAdapter.send: either a
requests.exceptions.Timeout raised from the RateLimitError (whose cause
carries the retry_after), or the verbatim outcome of the inner
HTTPAdapter.send — a response or a raised error of the transport. -/
inductive SendResult (ε ρ : Type)
  | timeout (retry_after : Option ℚ)
  | inner (result : Except ε ρ)

/-- Discriminator: did send surface a transport-timeout-class error
converted from a rate-limit failure. -/
def SendResult.is_rate_timeout : SendResult ε ρ → Bool
  | .timeout _ => true
  | .inner _ => false

/-- Translation of RateLimitedHTTPAdapter.send: if wait_if_needed
raised RateLimitError, re-raise it as requests.exceptions.Timeout;
otherwise delegate and return the inner outcome unchanged. -/
def adapter_send (limiter_result : Except RateLimitErrorModel Unit)
    (inner_result : Except ε ρ) : SendResult ε ρ :=
  match limiter_result with
  | .error e => .timeout e.retry_after
  | .ok _ => .inner inner_result

/-- Claim C9: adapter_send surfaces a transport-timeout error exactly
when the limiter raised RateLimitError (carrying its retry_after), and
on successful acquisition returns the inner outcome — response or
transport error — verbatim, never a distinct rate-limit error type. -/
theorem adapter_send_timeout_iff (ε ρ : Type) (e : RateLimitErrorModel)
    (inner_result : Except ε ρ) :
    adapter_send (.error e) inner_result = SendResult.timeout e.retry_after
    ∧ (adapter_send (.error e) inner_result).is_rate_timeout = true
    ∧ adapter_send (.ok ()) inner_result = SendResult.inner inner_result
    ∧ (adapter_send (.ok ()) inner_result).is_rate_timeout = false :=
  ⟨rfl, rfl, rfl, rfl⟩

/-!
AuthMiddleware (src/polymarket_client/auth/auth_middleware.py). The
headers of a prepared request are modelled as an association list (the
dict(request.headers) que validate_request builds); header access is
case-sensitive there. The middleware state is the configuration plus
the used_nonces set, modelled as a duplicate-free list with List.insert
for set.add. SignatureValidator defines no method named
validate_eip712_signature, so the call the wallet path makes after all
other checks raises AttributeError; validate_request therefore returns
Except PyExc Bool paired with the possibly-updated middleware state.
-/

/-- Python exceptions escaping validate_request. -/
inductive PyExc
  | attributeError
deriving DecidableEq

/-- Python headers.get(key, default) over the header dict. -/
def headerGet (headers : List (String × String)) (key dflt : String) : String :=
  (headers.lookup key).getD dflt

/-- A prepared request: method, path_url and body as the requests
library exposes them (None when absent), and the header dict. Byte
bodies are modelled by their decoded text. -/
structure PreparedRequest where
  method : Option String
  path_url : Option String
  body : Option String
  headers : List (String × String)

/-- Translation of AuthMiddleware._has_hmac_headers. -/
def has_hmac_headers (headers : List (String × String)) : Bool :=
  ["L2-API-KEY", "L2-API-SIGNATURE", "L2-API-TIMESTAMP", "L2-API-PASSPHRASE"].all
    (fun k => (headers.lookup k).isSome)

/-- Translation of AuthMiddleware._has_eip712_headers. -/
def has_eip712_headers (headers : List (String × String)) : Bool :=
  ["POLY_ADDRESS", "POLY_SIGNATURE", "POLY_TIMESTAMP", "POLY_NONCE"].all
    (fun k => (headers.lookup k).isSome)

/-- State and configuration of AuthMiddleware. -/
structure AuthMiddleware where
  max_timestamp_age : Int
  enable_nonce_tracking : Bool
  used_nonces : List Int

/-- Translation of AuthMiddleware._validate_hmac_request: a falsy
secret fails; then the timestamp must validate; then the recomputed
HMAC signature must match, with method defaulting to GET, path to /,
body to the empty string. -/
def AuthMiddleware.validate_hmac_request (mw : AuthMiddleware) (now_s : Int)
    (req : PreparedRequest) (headers : List (String × String))
    (api_secret : Option String) : Bool :=
  if !pyTruthyStr api_secret then false
  else
    let timestamp := headerGet headers "L2-API-TIMESTAMP" ""
    if !validate_timestamp now_s timestamp mw.max_timestamp_age then false
    else
      let signature := headerGet headers "L2-API-SIGNATURE" ""
      let method := pyOrStr req.method "GET"
      let path := pyOrStr req.path_url "/"
      let body := pyOrStr req.body ""
      validate_hmac_signature signature (api_secret.getD "") method path body timestamp

/-- Translation of AuthMiddleware._validate_eip712_request: address
format, then timestamp, then nonce parse (default header value "0"),
then — under nonce tracking — nonce validity, after which the nonce is
added to used_nonces; the subsequent call
self.validator.validate_eip712_signature(...) raises AttributeError
because SignatureValidator has no such attribute. -/
def AuthMiddleware.validate_eip712_request (mw : AuthMiddleware) (now_s now_us : Int)
    (headers : List (String × String)) : Except PyExc Bool × AuthMiddleware :=
  let address := headerGet headers "POLY_ADDRESS" ""
  if !validate_address_format address then (.ok false, mw)
  else
    let timestamp := headerGet headers "POLY_TIMESTAMP" ""
    if !validate_timestamp now_s timestamp mw.max_timestamp_age then (.ok false, mw)
    else
      match pyParseInt (headerGet headers "POLY_NONCE" "0") with
      | none => (.ok false, mw)
      | some nonce =>
        if mw.enable_nonce_tracking then
          if !validate_nonce now_us nonce mw.used_nonces 3600 then (.ok false, mw)
          else
            (.error .attributeError,
             { mw with used_nonces := mw.used_nonces.insert nonce })
        else (.error .attributeError, mw)

/-- Translation of AuthMiddleware.validate_request: dispatch on which
complete header set is present; a request with neither is rejected
outright. -/
def AuthMiddleware.validate_request (mw : AuthMiddleware) (now_s now_us : Int)
    (req : PreparedRequest) (api_secret : Option String) :
    Except PyExc Bool × AuthMiddleware :=
  let headers := req.headers
  if has_hmac_headers headers then
    (.ok (mw.validate_hmac_request now_s req headers api_secret), mw)
  else if has_eip712_headers headers then
    mw.validate_eip712_request now_s now_us headers
  else (.ok false, mw)

/-- The middleware of the concrete wallet-validation run: default
configuration, empty nonce set. -/
def mw0 : AuthMiddleware :=
  { max_timestamp_age := 300, enable_nonce_tracking := true, used_nonces := [] }

/-- A wallet-scheme request whose address format, timestamp and nonce
all validate at clock 1000 s (nonce 1000000000 equals the microsecond
clock). -/
def req0 : PreparedRequest :=
  { method := none, path_url := none, body := none,
    headers :=
      [("POLY_ADDRESS", "0xaaaaaaaaaaaaaaaaaaaaaaaaaaaaaaaaaaaaaaaa"),
       ("POLY_SIGNATURE", "0xsig"),
       ("POLY_TIMESTAMP", "1000"),
       ("POLY_NONCE", "1000000000")] }

/-- Evaluation pieces of the concrete run on req0 at clocks 1000 s and
1000000000 us: header detection, the three pre-signature checks, and
the nonce parse. -/
theorem req0_prechecks :
    has_hmac_headers req0.headers = false
    ∧ has_eip712_headers req0.headers = true
    ∧ validate_address_format (headerGet req0.headers "POLY_ADDRESS" "") = true
    ∧ validate_timestamp 1000 (headerGet req0.headers "POLY_TIMESTAMP" "")
        mw0.max_timestamp_age = true
    ∧ pyParseInt (headerGet req0.headers "POLY_NONCE" "0") = some 1000000000
    ∧ validate_nonce 1000000000 1000000000 mw0.used_nonces 3600 = true := by
  refine ⟨by decide, by decide, by decide, by decide, by decide, ?_⟩
  show validate_nonce 1000000000 1000000000 [] 3600 = true
  unfold validate_nonce
  norm_num

/-- The concrete wallet run: validate_request on req0 reaches the
signature step with the nonce already inserted and raises
AttributeError there. -/
theorem validate_request_req0_eval :
    AuthMiddleware.validate_request mw0 1000 1000000000 req0 none
      = (.error .attributeError,
         { mw0 with used_nonces := [1000000000] }) := by
  obtain ⟨h1, h2, h3, h4, h5, h6⟩ := req0_prechecks
  simp only [AuthMiddleware.validate_request, h1, h2, Bool.false_eq_true, if_false,
    if_true, AuthMiddleware.validate_eip712_request, h3, h4, h5, h6, Bool.not_true,
    Bool.false_eq_true]
  rfl

/-- Claim C2: a wallet request passing the address, timestamp and
nonce checks makes validate_request raise AttributeError instead of
returning a boolean, because it calls the nonexistent
SignatureValidator.validate_eip712_signature; a request with neither
complete header set is still rejected with False (fail-closed). -/
theorem validate_request_attribute_error :
    (AuthMiddleware.validate_request mw0 1000 1000000000 req0 none).1
      = .error .attributeError
    ∧ AuthMiddleware.validate_request mw0 1000 1000000000
        { method := none, path_url := none, body := none, headers := [] } none
      = (.ok false, mw0) := by
  constructor
  · rw [validate_request_req0_eval]
  · rfl

/-- Claim C1 counterexample: on the concrete wallet request req0 the
whole validation does not succeed — it raises AttributeError — yet
used_nonces changes from empty to containing the nonce of the request,
so the nonce is not inserted exactly upon successful validation and
the state is not left unchanged when a validation step fails. -/
theorem eip712_nonce_inserted_without_success :
    (AuthMiddleware.validate_request mw0 1000 1000000000 req0 none).1
      = .error .attributeError
    ∧ (AuthMiddleware.validate_request mw0 1000 1000000000 req0 none).2.used_nonces
      = [1000000000]
    ∧ mw0.used_nonces = [] := by
  refine ⟨?_, ?_, rfl⟩
  · rw [validate_request_req0_eval]
  · rw [validate_request_req0_eval]

/-- Claim C1 amended: for a wallet-scheme request under nonce tracking,
the nonce is added to used_nonces exactly when the three pre-signature
checks (address format, timestamp, nonce parse and validity) all pass;
the insertion happens before the signature step, which then raises
AttributeError (SignatureValidator has no validate_eip712_signature),
so the whole validation never succeeds while the nonce stays consumed;
when any pre-signature check fails, the request is rejected with False
and used_nonces is unchanged. -/
theorem eip712_nonce_insertion_characterization (mw : AuthMiddleware)
    (now_s now_us : Int) (req : PreparedRequest) (api_secret : Option String)
    (htrack : mw.enable_nonce_tracking = true)
    (hhm : has_hmac_headers req.headers = false)
    (hep : has_eip712_headers req.headers = true) :
    (∀ n, pyParseInt (headerGet req.headers "POLY_NONCE" "0") = some n →
        validate_address_format (headerGet req.headers "POLY_ADDRESS" "") = true →
        validate_timestamp now_s (headerGet req.headers "POLY_TIMESTAMP" "")
          mw.max_timestamp_age = true →
        validate_nonce now_us n mw.used_nonces 3600 = true →
        AuthMiddleware.validate_request mw now_s now_us req api_secret
          = (.error .attributeError,
             { mw with used_nonces := mw.used_nonces.insert n }))
    ∧ (¬ (validate_address_format (headerGet req.headers "POLY_ADDRESS" "") = true
          ∧ validate_timestamp now_s (headerGet req.headers "POLY_TIMESTAMP" "")
              mw.max_timestamp_age = true
          ∧ ∃ n, pyParseInt (headerGet req.headers "POLY_NONCE" "0") = some n
              ∧ validate_nonce now_us n mw.used_nonces 3600 = true) →
        AuthMiddleware.validate_request mw now_s now_us req api_secret
          = (.ok false, mw)) := by
  constructor
  · intro n hn haddr hts hnv
    simp only [AuthMiddleware.validate_request, hhm, Bool.false_eq_true, if_false,
      hep, if_true, AuthMiddleware.validate_eip712_request, haddr, hts, hn, htrack,
      hnv, Bool.not_true, Bool.false_eq_true]
  · intro hfail
    simp only [AuthMiddleware.validate_request, hhm, Bool.false_eq_true, if_false,
      hep, if_true]
    by_cases haddr : validate_address_format (headerGet req.headers "POLY_ADDRESS" "")
        = true
    · by_cases hts : validate_timestamp now_s (headerGet req.headers "POLY_TIMESTAMP" "")
          mw.max_timestamp_age = true
      · cases hp : pyParseInt (headerGet req.headers "POLY_NONCE" "0") with
        | none =>
          simp only [AuthMiddleware.validate_eip712_request, haddr, hts, hp,
            Bool.not_true, Bool.false_eq_true, if_false]
        | some n =>
          by_cases hnv : validate_nonce now_us n mw.used_nonces 3600 = true
          · exact absurd ⟨haddr, hts, n, hp, hnv⟩ hfail
          · rw [Bool.not_eq_true] at hnv
            simp only [AuthMiddleware.validate_eip712_request, haddr, hts, hp, htrack,
              hnv, Bool.not_true, Bool.not_false, Bool.false_eq_true, if_false, if_true]
      · rw [Bool.not_eq_true] at hts
        simp only [AuthMiddleware.validate_eip712_request, haddr, hts, Bool.not_true,
          Bool.not_false, Bool.false_eq_true, if_false, if_true]
    · rw [Bool.not_eq_true] at haddr
      simp only [AuthMiddleware.validate_eip712_request, haddr, Bool.not_false, if_true]

/-- Witness for the amended claim C1 at the concrete run on req0. -/
theorem eip712_nonce_insertion_characterization_witness :
    mw0.enable_nonce_tracking = true
    ∧ has_hmac_headers req0.headers = false
    ∧ has_eip712_headers req0.headers = true
    ∧ ((∀ n, pyParseInt (headerGet req0.headers "POLY_NONCE" "0") = some n →
          validate_address_format (headerGet req0.headers "POLY_ADDRESS" "") = true →
          validate_timestamp 1000 (headerGet req0.headers "POLY_TIMESTAMP" "")
            mw0.max_timestamp_age = true →
          validate_nonce 1000000000 n mw0.used_nonces 3600 = true →
          AuthMiddleware.validate_request mw0 1000 1000000000 req0 none
            = (.error .attributeError,
               { mw0 with used_nonces := mw0.used_nonces.insert n }))
       ∧ (¬ (validate_address_format (headerGet req0.headers "POLY_ADDRESS" "") = true
             ∧ validate_timestamp 1000 (headerGet req0.headers "POLY_TIMESTAMP" "")
                 mw0.max_timestamp_age = true
             ∧ ∃ n, pyParseInt (headerGet req0.headers "POLY_NONCE" "0") = some n
                 ∧ validate_nonce 1000000000 n mw0.used_nonces 3600 = true) →
           AuthMiddleware.validate_request mw0 1000 1000000000 req0 none
             = (.ok false, mw0))) :=
  ⟨rfl, by decide, by decide,
   eip712_nonce_insertion_characterization mw0 1000 1000000000 req0 none
     rfl (by decide) (by decide)⟩
